import Mathlib

/-!
Verification of the Code-relay judging backend.

This file embeds the judging subsystem of the repository in Lean 4:
the execution client and testcase runner (`services/codeExecutor.js`),
the scorer inlined in the submit route, the question shuffler, the
progression state machine, and the participant-facing routes
(`backend/routes/participantRoutes.js`).

Conventions of the embedding:
* JavaScript numbers holding integral values (ids, counts, timestamps,
  millisecond durations) are modelled as `Nat`/`Int`; JS number arithmetic
  on scores and averages is modelled as exact rationals (`Rat`).
* Nullable database columns are `Option` values; JS truthiness on them is
  modelled explicitly where the code relies on it.
* The external sandbox (Piston), the system clock, and the crypto hash are
  oracles passed as parameters; the orchestrator code around them is
  translated literally.
* Fallible JS calls (`await` that may throw) are `Except String` values;
  `Except.error` carries the thrown error's `.message`.
* JS `String.prototype.trim` is modelled by the executable `jsTrim`, and
  `Array.prototype.sort` with a comparator by the stable `sortBy`.
-/

set_option linter.unusedVariables false

/-- Model of JS `String.prototype.trim`: strip leading and trailing
whitespace characters. -/
def jsTrim (s : String) : String :=
  ⟨((s.data.dropWhile Char.isWhitespace).reverse.dropWhile Char.isWhitespace).reverse⟩

/-- Stable insertion of `a` into `l` keeping elements `b` with `le a b`
false before `a`: helper for `sortBy`. -/
def insertBy (le : α → α → Bool) (a : α) : List α → List α
  | [] => [a]
  | b :: l => if le a b then a :: b :: l else b :: insertBy le a l

/-- Model of JS `Array.prototype.sort(comparator)` as a stable structural
sort by the boolean relation `le` ("comparator returned ≤ 0"). -/
def sortBy (le : α → α → Bool) : List α → List α
  | [] => []
  | a :: l => insertBy le a (sortBy le l)

/-! ## Data model (Prisma rows as the routes read them) -/

/-- Testcase visibility enum of the Prisma schema. -/
inductive Visibility where
  | VISIBLE
  | HIDDEN
deriving DecidableEq

/-- Identifier attached to a testcase result.  Database testcases carry a
numeric id; the custom-input run path fabricates the literal id `'custom'`
(`participantRoutes.js` line 550), so the id domain is a sum. -/
inductive TCId where
  | db (n : Nat)
  | custom
deriving DecidableEq

/-- A stored testcase row (input, expectedOutput, visibility). -/
structure Testcase where
  id : TCId
  input : String
  expectedOutput : String
  visibility : Visibility
deriving DecidableEq

/-- The shape of testcase actually consumed by `runTestcases`: it reads
only `id`, `input` and `expectedOutput` of each element. -/
structure RunTC where
  id : TCId
  input : String
  expectedOutput : String
deriving DecidableEq

/-- Projection of a stored testcase to the fields `runTestcases` reads. -/
def Testcase.toRunTC (tc : Testcase) : RunTC :=
  { id := tc.id, input := tc.input, expectedOutput := tc.expectedOutput }

/-- A question row with the columns the judging code reads. -/
structure Question where
  id : Nat
  examId : Nat
  title : String
  description : String
  inputFormat : String
  outputFormat : String
  constraints : String
  timeLimit : Option Nat
  memoryLimit : Option Nat
  allowedLanguages : List String
  starterCodes : String
  maxMarks : Rat
  testcases : List Testcase
deriving DecidableEq

/-- An exam (level) row; the list of exams in a `DataState` is kept in the
`orderBy [sequence asc, createdAt asc]` order that every exam query in the
routes uses, so the ordering columns themselves are not repeated here. -/
structure Exam where
  id : Nat
  startTime : Option Int
  endTime : Option Int
deriving DecidableEq

/-- A submission row with the columns written by the submit route and read
by the progression logic. -/
structure Submission where
  participantId : Nat
  questionId : Nat
  language : String
  code : String
  score : Rat
  totalTests : Nat
  passedTests : Nat
  status : String
  executionTime : Rat
  createdAt : Int
deriving DecidableEq

/-- The persistent data visible to the participant routes: the ordered
exam list, the question rows, the submission rows, and the
participant-exam join relation (pairs of participant id and exam id). -/
structure DataState where
  exams : List Exam
  questions : List Question
  submissions : List Submission
  joined : List (Nat × Nat)
deriving DecidableEq

/-! ## Execution Client (`services/codeExecutor.js`) -/

/-- One entry of the Piston runtime catalogue. -/
structure Runtime where
  language : String
  version : String
deriving DecidableEq

/-- The body of the `POST /execute` request the client sends to the
sandbox: exactly the fields of the `axios.post` payload
(`files: [{content: code}]` is the single `fileContent`).  Note there is
no memory-limit field in the payload. -/
structure ExecRequest where
  language : String
  version : String
  fileContent : String
  stdin : String
  compile_timeout : Nat
  run_timeout : Nat
deriving DecidableEq

/-- One stage (compile or run) of a Piston response. -/
structure StageResult where
  stdout : String
  stderr : String
  output : String
  code : Int
  signal : Option String
deriving DecidableEq

/-- A Piston execute response: optional compile stage plus run stage. -/
structure PistonResponse where
  compile : Option StageResult
  run : StageResult
deriving DecidableEq

/-- The normalized result `executeCode` resolves to. -/
structure ExecResult where
  output : String
  error : Option String
  executionTime : Nat
deriving DecidableEq

/-- The external sandbox as an oracle: its runtime catalogue and its
response to an execute request (`Except.error` = axios threw; the payload
is the diagnostic message the catch block derives from the error). -/
structure Sandbox where
  runtimes : List Runtime
  respond : ExecRequest → Except String PistonResponse

/-- The `languageMap` object literal. -/
def languageMap (l : String) : Option String :=
  if l = "C" then some "c"
  else if l = "C++" then some "c++"
  else if l = "Python" then some "python"
  else if l = "Java" then some "java"
  else none

/-- `languageMap[language] || language.toLowerCase()`. -/
def pistonLanguage (language : String) : String :=
  (languageMap language).getD language.toLower

/-- JS `a || b` on strings (the empty string is falsy). -/
def orFallback (a b : String) : String :=
  if a = "" then b else a

/-- JS truthiness of a nullable string. -/
def jsTruthy (s : Option String) : Bool :=
  match s with
  | none => false
  | some v => v ≠ ""

/-- Request construction inside `executeCode` (lines 53-85 of
`codeExecutor.js`): resolve the language against the runtime catalogue,
fail as the code's `throw new Error(...)` does if absent, and otherwise
build the execute payload with `compile_timeout: 10000` and
`run_timeout: (timeLimit || 5) * 1000`. -/
def executeRequest (runtimes : List Runtime) (code language input : String)
    (timeLimit : Nat) : Except String ExecRequest :=
  let piston := pistonLanguage language
  match runtimes.find? (fun r => r.language == piston) with
  | none => .error ("Language " ++ language ++ " not supported. Tried: " ++ piston)
  | some runtime =>
      .ok { language := piston
            version := runtime.version
            fileContent := code
            stdin := input
            compile_timeout := 10000
            run_timeout := (if timeLimit == 0 then 5 else timeLimit) * 1000 }

/-- Classification of a Piston response (`executeCode` lines 98-118):
compile failure, signal-bearing run failure, or clean completion. -/
def classifyResponse (resp : PistonResponse) (executionTime : Nat) : ExecResult :=
  if (match resp.compile with
      | some c => c.code != 0
      | none => false) then
    { output := ""
      error := some (orFallback (resp.compile.map (·.stderr) |>.getD "")
                      (orFallback (resp.compile.map (·.output) |>.getD "") "Compilation error"))
      executionTime := executionTime }
  else if resp.run.code != 0 && jsTruthy resp.run.signal then
    { output := resp.run.stdout
      error := some (orFallback resp.run.stderr
                      ("Runtime error (signal: " ++ resp.run.signal.getD "" ++ ")"))
      executionTime := executionTime }
  else
    { output := resp.run.stdout
      error := if resp.run.stderr = "" then none else some resp.run.stderr
      executionTime := executionTime }

/-- `executeCode`: the whole body is wrapped in try/catch, so it always
returns a structured result.  `elapsed` is the wall-clock duration
measured around the call (an oracle standing for `Date.now()` deltas). -/
def executeCode (sandbox : Sandbox) (elapsed : Nat) (code language input : String)
    (timeLimit : Nat) : ExecResult :=
  match executeRequest sandbox.runtimes code language input timeLimit with
  | .error msg => { output := "", error := some msg, executionTime := elapsed }
  | .ok req =>
      match sandbox.respond req with
      | .error msg => { output := "", error := some msg, executionTime := elapsed }
      | .ok resp => classifyResponse resp elapsed

/-! ## Testcase Runner (`runTestcases` in `services/codeExecutor.js`) -/

/-- The abstract execution client as the runner sees it: called with
(code, language, stdin, timeLimit); `Except.error` models a thrown error. -/
abbrev ExecClient := String → String → String → Nat → Except String ExecResult

/-- One element of the array `runTestcases` returns. -/
structure Outcome where
  testcaseId : TCId
  passed : Bool
  input : String
  expectedOutput : String
  actualOutput : String
  error : Option String
  executionTime : Nat
deriving DecidableEq

/-- `runTestcases(code, language, testcases, timeLimit, memoryLimit)`:
iterates the testcases, calls the execution client per testcase inside
try/catch, compares trimmed outputs for equality, and collects one
outcome per testcase.  The `memoryLimit` parameter is accepted but never
used by the body. -/
def runTestcases (exec : ExecClient) (code language : String)
    (testcases : List RunTC) (timeLimit : Nat) (memoryLimit : String) : List Outcome :=
  testcases.map (fun testcase =>
    match exec code language testcase.input timeLimit with
    | .ok result =>
        { testcaseId := testcase.id
          passed := jsTrim result.output == jsTrim testcase.expectedOutput
          input := testcase.input
          expectedOutput := testcase.expectedOutput
          actualOutput := result.output
          error := result.error
          executionTime := result.executionTime }
    | .error msg =>
        { testcaseId := testcase.id
          passed := false
          input := testcase.input
          expectedOutput := testcase.expectedOutput
          actualOutput := ""
          error := some msg
          executionTime := 0 })

/-- The argument tuple of one `executeCode` call. -/
structure ExecCall where
  code : String
  language : String
  input : String
  timeLimit : Nat
deriving DecidableEq

/-- Trace of the execution-client calls made by one `runTestcases`
invocation, in call order: `executeCode(code, language, testcase.input,
timeLimit)` for each testcase.  The `memoryLimit` parameter reaches no
call. -/
def runTestcasesCalls (code language : String) (testcases : List RunTC)
    (timeLimit : Nat) (memoryLimit : String) : List ExecCall :=
  testcases.map (fun testcase =>
    { code := code, language := language, input := testcase.input, timeLimit := timeLimit })

/-! ## Progression state machine (`participantRoutes.js`) -/

/-- Questions of one exam (`prisma.question.findMany({where: {examId}})`). -/
def questionsOf (s : DataState) (examId : Nat) : List Question :=
  s.questions.filter (fun q => q.examId == examId)

/-- `prisma.submission.findMany({where: {participantId, questionId: {in:
qids}, status: 'COMPLETED'}, distinct: ['questionId']}).length`: the
number of distinct question ids among this participant's COMPLETED-status
submissions to the given questions. -/
def prismaDistinctCompleted (s : DataState) (pid : Nat) (qids : List Nat) : Nat :=
  (((s.submissions.filter (fun sub =>
      sub.participantId == pid && qids.contains sub.questionId
        && sub.status == "COMPLETED")).map (fun sub => sub.questionId)).dedup).length

/-- The same query as issued by the login route, which filters on
`score: { gt: 0 }` instead of on status. -/
def loginDistinctPositive (s : DataState) (pid : Nat) (qids : List Nat) : Nat :=
  (((s.submissions.filter (fun sub =>
      sub.participantId == pid && qids.contains sub.questionId
        && decide (sub.score > 0))).map (fun sub => sub.questionId)).dedup).length

/-- `prevExam.endTime ? now > endTime : false` (the timeout check the
unlock computations apply to a previous exam). -/
def timedOut (now : Int) (e : Exam) : Bool :=
  match e.endTime with
  | some endT => decide (now > endT)
  | none => false

/-- The `isLive` computation of the `GET /exams` loop. -/
def isLiveAt (now : Int) (e : Exam) : Bool :=
  match e.startTime, e.endTime with
  | some st, some en => decide (now ≥ st) && decide (now ≤ en)
  | some st, none => decide (now ≥ st)
  | none, some en => decide (now ≤ en)
  | none, none => true

/-- Membership of (participant, exam) in the implicit many-to-many join
relation (`participant.exams.some(e => e.id === examId)`). -/
def isJoined (s : DataState) (pid examId : Nat) : Bool :=
  s.joined.any (fun pe => pe.1 == pid && pe.2 == examId)

/-- Body of the `GET /exams` unlock step for a previous exam (lines
251-278): with a non-empty question set the previous level must be
completed (distinct COMPLETED submissions covering its questions) or
timed out; with zero questions `unlocked` is left `false`. -/
def stepOK (s : DataState) (pid : Nat) (now : Int) (prev : Exam) : Bool :=
  let prevQs := questionsOf s prev.id
  if prevQs.length > 0 then
    (prismaDistinctCompleted s pid (prevQs.map (fun q => q.id)) == prevQs.length)
      || timedOut now prev
  else
    false

/-- The per-exam `completed` flag of the `GET /exams` loop (lines
281-296): all of this level's questions have a COMPLETED-status
submission; a level with zero questions keeps `completed = false`. -/
def currentCompleted (s : DataState) (pid : Nat) (e : Exam) : Bool :=
  let qs := questionsOf s e.id
  if qs.length > 0 then
    prismaDistinctCompleted s pid (qs.map (fun q => q.id)) == qs.length
  else false

/-- One element of the `examStatus` array returned by `GET /exams`
(projected to the gating fields; the static exam columns are carried
unchanged by the route). -/
structure ExamStatus where
  examId : Nat
  unlocked : Bool
  joined : Bool
  needsCode : Bool
  completed : Bool
  isLive : Bool
deriving DecidableEq

/-- The `GET /exams` loop (lines 220-310): walks the ordered exam list
carrying `previousUnlocked`; the first exam is unlocked, and each later
exam is unlocked iff the previous one was unlocked and passes `stepOK`. -/
def examStatusLoop (s : DataState) (pid : Nat) (now : Int) :
    List Exam → Option Exam → Bool → List ExamStatus
  | [], _, _ => []
  | exam :: rest, prevOpt, previousUnlocked =>
    let unlocked :=
      match prevOpt with
      | none => true
      | some prev => previousUnlocked && stepOK s pid now prev
    let joined := isJoined s pid exam.id
    { examId := exam.id
      unlocked := unlocked
      joined := joined
      needsCode := !joined
      completed := currentCompleted s pid exam
      isLive := isLiveAt now exam }
      :: examStatusLoop s pid now rest (some exam) unlocked

/-- The full `GET /exams` status list for a participant. -/
def examStatusList (s : DataState) (pid : Nat) (now : Int) : List ExamStatus :=
  examStatusLoop s pid now s.exams none true

/-- Whether a previous exam blocks unlocking in `isExamUnlocked` (lines
330-357): it blocks iff it is not completed, not timed out, and has at
least one question. -/
def blocksUnlock (s : DataState) (pid : Nat) (now : Int) (prev : Exam) : Bool :=
  let prevQs := questionsOf s prev.id
  let completed := prismaDistinctCompleted s pid (prevQs.map (fun q => q.id)) == prevQs.length
  !completed && !timedOut now prev && decide (prevQs.length > 0)

/-- `isExamUnlocked(participantId, examId)` (lines 320-359): locate the
target exam in the ordered list; index 0 is always unlocked; otherwise no
earlier exam may block. -/
def isExamUnlocked (s : DataState) (pid : Nat) (examId : Nat) (now : Int) : Bool :=
  match s.exams.findIdx? (fun e => e.id == examId) with
  | none => false
  | some idx =>
      if idx == 0 then true
      else !((s.exams.take idx).any (blocksUnlock s pid now))

/-- The login route's active-exam walk (lines 90-120): starting from the
first exam, advance to exam `i` while exam `i-1` has a positive-score
distinct submission count equal to its (non-zero) question count;
`prevActive` is always `exams[i-1]`, which is also the current
`activeExam`. -/
def loginLoop (s : DataState) (pid : Nat) : Exam → List Exam → Exam
  | activeExam, [] => activeExam
  | prevActive, exam :: rest =>
      let prevQs := questionsOf s prevActive.id
      if (loginDistinctPositive s pid (prevQs.map (fun q => q.id)) == prevQs.length)
          && decide (prevQs.length > 0) then
        loginLoop s pid exam rest
      else prevActive

/-- The `activeExam` computed at login (`exams[0]` when no advance
happens; `none` when there are no exams). -/
def loginActiveExam (s : DataState) (pid : Nat) : Option Exam :=
  match s.exams with
  | [] => none
  | first :: rest => some (loginLoop s pid first rest)

/-! ## `GET /questions` (question listing with shuffling) -/

/-- Projection of a submission row to the columns selected for the
question listing. -/
structure SubmissionView where
  code : String
  language : String
  createdAt : Int
  score : Rat
  status : String
deriving DecidableEq

/-- Projection of a testcase row to the columns selected for the
question listing. -/
structure TestcaseView where
  id : TCId
  input : String
  expectedOutput : String
deriving DecidableEq

/-- A question as returned by `GET /questions`: all content columns, the
VISIBLE testcases only, and the requesting participant's own submissions. -/
structure QuestionView where
  id : Nat
  title : String
  description : String
  inputFormat : String
  outputFormat : String
  constraints : String
  timeLimit : Option Nat
  memoryLimit : Option Nat
  allowedLanguages : List String
  starterCodes : String
  testcases : List TestcaseView
  submissions : List SubmissionView
deriving DecidableEq

/-- The participant's own submissions to a question as selected by the
listing (`orderBy: {createdAt: 'desc'}`). -/
def subsOf (s : DataState) (pid : Nat) (qid : Nat) : List SubmissionView :=
  (sortBy (fun a b => decide (b.createdAt ≤ a.createdAt))
    (s.submissions.filter (fun sub => sub.participantId == pid && sub.questionId == qid))).map
    (fun sub =>
      { code := sub.code, language := sub.language, createdAt := sub.createdAt
        score := sub.score, status := sub.status })

/-- The `select` clause of the question listing applied to one question:
only testcases `where: {visibility: 'VISIBLE'}` are included. -/
def toQuestionView (s : DataState) (pid : Nat) (q : Question) : QuestionView :=
  { id := q.id
    title := q.title
    description := q.description
    inputFormat := q.inputFormat
    outputFormat := q.outputFormat
    constraints := q.constraints
    timeLimit := q.timeLimit
    memoryLimit := q.memoryLimit
    allowedLanguages := q.allowedLanguages
    starterCodes := q.starterCodes
    testcases := (q.testcases.filter (fun tc => tc.visibility == Visibility.VISIBLE)).map
      (fun tc => { id := tc.id, input := tc.input, expectedOutput := tc.expectedOutput })
    submissions := subsOf s pid q.id }

/-- Response of `GET /questions`. -/
inductive QuestionsResponse where
  | error (status : Nat) (msg : String)
  | ok (questions : List QuestionView)
deriving DecidableEq

/-- `GET /questions` (lines 362-440): unlock gate, join gate, fetch the
exam's questions with visible testcases, reject an empty list, and order
deterministically by `sha256(seed + question.id)` hex digests (the digest
function is the `hash` oracle; comparison ascending as with
`localeCompare`). -/
def questionsRoute (hash : String → String) (s : DataState) (pid : Nat)
    (examId : Nat) (now : Int) : QuestionsResponse :=
  if !(isExamUnlocked s pid examId now) then
    .error 403 "This level is locked. Complete previous levels first."
  else if !(isJoined s pid examId) then
    .error 403 "Please enter the exam code to access this level."
  else
    let questions := (questionsOf s examId).map (toQuestionView s pid)
    if questions.length == 0 then
      .error 404 "No questions available for this level."
    else
      let seed := toString pid ++ "-" ++ toString examId
      .ok (sortBy
            (fun a b => !decide (hash (seed ++ toString b.id) < hash (seed ++ toString a.id)))
            questions)

/-! ## `POST /run` -/

/-- Response of `POST /run`: the route returns the outcome records with
exactly the fields `runTestcases` produced. -/
inductive RunResponse where
  | error (status : Nat) (msg : String)
  | results (rs : List Outcome)
deriving DecidableEq

/-- The 4th argument of the `runTestcases` call on the run path:
`question.timeLimit ? question.timeLimit * 1000 : 5000` (milliseconds). -/
def runPathTimeLimitArg (q : Question) : Nat :=
  match q.timeLimit with
  | some t => if t == 0 then 5000 else t * 1000
  | none => 5000

/-- The 5th argument on the run path:
`question.memoryLimit ? question.memoryLimit + 'm' : '256m'`. -/
def runPathMemoryArg (q : Question) : String :=
  match q.memoryLimit with
  | some m => if m == 0 then "256m" else toString m ++ "m"
  | none => "256m"

/-- The 4th argument of the `runTestcases` call on the submit path:
`question.timeLimit * 1000`, which in JS evaluates to `0` when
`timeLimit` is null. -/
def submitPathTimeLimitArg (q : Question) : Nat :=
  match q.timeLimit with
  | some t => t * 1000
  | none => 0

/-- The 5th argument on the submit path: the template literal
`` `${question.memoryLimit}m` ``, which renders a null column as
`"nullm"`. -/
def submitPathMemoryArg (q : Question) : String :=
  match q.memoryLimit with
  | some m => toString m ++ "m"
  | none => "nullm"

/-- `POST /run` (lines 501-589): look up the question with all testcases,
unlock gate, join gate; with a custom input, match it (trimmed) against
any stored testcase's input to pick the expected output, else fall back
to `customExpectedOutput || ''`; without a custom input, run the VISIBLE
testcases, rejecting an empty set. -/
def runRoute (exec : ExecClient) (s : DataState) (pid : Nat) (now : Int)
    (questionId : Nat) (language code : String)
    (customInput : Option String) (customExpectedOutput : Option String) : RunResponse :=
  match s.questions.find? (fun q => q.id == questionId) with
  | none => .error 404 "Question not found"
  | some question =>
    if !(isExamUnlocked s pid question.examId now) then
      .error 403 "Level locked"
    else if !(isJoined s pid question.examId) then
      .error 403 "Please enter the exam code to access this level."
    else
      match customInput with
      | some ci =>
          let normalizedCustomInput := jsTrim ci
          let matchingTestcase :=
            question.testcases.find? (fun tc => jsTrim tc.input == normalizedCustomInput)
          let expectedOutput :=
            match matchingTestcase with
            | some tc => tc.expectedOutput
            | none =>
                match customExpectedOutput with
                | some ceo => ceo
                | none => ""
          .results (runTestcases exec code language
            [{ id := TCId.custom, input := ci, expectedOutput := expectedOutput }]
            (runPathTimeLimitArg question) (runPathMemoryArg question))
      | none =>
          let visibleTestcases :=
            question.testcases.filter (fun tc => tc.visibility == Visibility.VISIBLE)
          if visibleTestcases.length == 0 then
            .error 400 "No visible testcases available"
          else
            .results (runTestcases exec code language
              (visibleTestcases.map Testcase.toRunTC)
              (runPathTimeLimitArg question) (runPathMemoryArg question))

/-! ## `POST /submit` -/

/-- Body of a successful submit response (the DB-generated submission id
is omitted; `createdAt` is the creation instant). -/
structure SubmitBody where
  score : Rat
  totalTests : Nat
  passedTests : Nat
  status : String
  executionTime : Rat
  createdAt : Int
  testcaseResults : List Outcome
deriving DecidableEq

/-- Response of `POST /submit`. -/
inductive SubmitResponse where
  | error (status : Nat) (msg : String)
  | success (body : SubmitBody)
deriving DecidableEq

/-- Observable result of one submit request: the HTTP response, the data
state afterwards, and the trace of execution-client calls made. -/
structure SubmitResult where
  response : SubmitResponse
  state : DataState
  execCalls : List ExecCall
deriving DecidableEq

/-- The filter applied to outcomes before returning them from the submit
route: keep an outcome iff its testcase id resolves to a stored testcase
whose visibility is VISIBLE (`tc && tc.visibility === 'VISIBLE'`). -/
def submitVisibleFilter (question : Question) (r : Outcome) : Bool :=
  match question.testcases.find? (fun t => t.id == r.testcaseId) with
  | some tc => tc.visibility == Visibility.VISIBLE
  | none => false

/-- `POST /submit` (lines 592-696): question lookup, unlock gate, join
gate, empty-testcase rejection; then run all testcases, aggregate
`score = (passedTests / totalTests) * maxMarks` and the mean execution
time, persist the submission with status COMPLETED, and answer with the
aggregates plus the VISIBLE testcases' outcome records. -/
def submitRoute (exec : ExecClient) (s : DataState) (pid : Nat) (now : Int)
    (questionId : Nat) (language code : String) : SubmitResult :=
  match s.questions.find? (fun q => q.id == questionId) with
  | none => ⟨.error 404 "Question not found", s, []⟩
  | some question =>
    if !(isExamUnlocked s pid question.examId now) then
      ⟨.error 403 "Level locked", s, []⟩
    else if !(isJoined s pid question.examId) then
      ⟨.error 403 "Please enter the exam code to access this level.", s, []⟩
    else if question.testcases.length == 0 then
      ⟨.error 400 "No testcases available", s, []⟩
    else
      let tcs := question.testcases.map Testcase.toRunTC
      let results := runTestcases exec code language tcs
        (submitPathTimeLimitArg question) (submitPathMemoryArg question)
      let totalTests := results.length
      let passedTests := (results.filter (fun r => r.passed)).length
      let scorePercentage : Rat := (passedTests : Rat) / (totalTests : Rat)
      let score : Rat := scorePercentage * question.maxMarks
      let avgExecutionTime : Rat :=
        (((results.map (fun r => r.executionTime)).sum : Nat) : Rat) / (totalTests : Rat)
      let newSubmission : Submission :=
        { participantId := pid
          questionId := questionId
          language := language
          code := code
          score := score
          totalTests := totalTests
          passedTests := passedTests
          status := "COMPLETED"
          executionTime := avgExecutionTime
          createdAt := now }
      let visibleTestcaseResults := results.filter (submitVisibleFilter question)
      ⟨.success
          { score := score
            totalTests := totalTests
            passedTests := passedTests
            status := "COMPLETED"
            executionTime := avgExecutionTime
            createdAt := now
            testcaseResults := visibleTestcaseResults }
        , { s with submissions := s.submissions ++ [newSubmission] }
        , runTestcasesCalls code language tcs
            (submitPathTimeLimitArg question) (submitPathMemoryArg question)⟩

/-- The testcase detail a participant sees in a submit response (empty on
a rejected request). -/
def submitTestcaseResults (r : SubmitResult) : List Outcome :=
  match r.response with
  | .success body => body.testcaseResults
  | .error _ _ => []

/-! ## Hidden-content erasure -/

/-- A question with its HIDDEN testcases removed. -/
def stripHiddenQ (q : Question) : Question :=
  { q with testcases := q.testcases.filter (fun tc => tc.visibility == Visibility.VISIBLE) }

/-- A data state with every question's HIDDEN testcases removed:
the participant-visible image of the state. -/
def stripHidden (s : DataState) : DataState :=
  { s with questions := s.questions.map stripHiddenQ }

/-! ## Shared concrete fixtures -/

/-- An execution client that always succeeds with output "25". -/
def execOK : ExecClient := fun _ _ _ _ => .ok { output := "25", error := none, executionTime := 3 }

/-- A Piston runtime catalogue holding just python. -/
def pyRuntimes : List Runtime := [{ language := "python", version := "3.10.0" }]

/-- A visible testcase. -/
def tcVis : Testcase := { id := .db 1, input := "1 2", expectedOutput := "3", visibility := .VISIBLE }

/-- A hidden testcase. -/
def tcHid : Testcase := { id := .db 2, input := "5", expectedOutput := "25", visibility := .HIDDEN }

/-- A question on exam 1 with one visible and one hidden testcase. -/
def q40 : Question :=
  { id := 40, examId := 1, title := "Q", description := "", inputFormat := "",
    outputFormat := "", constraints := "", timeLimit := some 2, memoryLimit := some 256,
    allowedLanguages := ["Python"], starterCodes := "", maxMarks := 100,
    testcases := [tcVis, tcHid] }

/-- First exam (always unlocked). -/
def exam1 : Exam := { id := 1, startTime := none, endTime := none }

/-- Second exam. -/
def exam2 : Exam := { id := 2, startTime := none, endTime := none }

/-- Base state: one exam, one question, participant 7 joined. -/
def sBase : DataState :=
  { exams := [exam1], questions := [q40], submissions := [], joined := [(7, 1)] }

-- sanity checks on the fixtures
example : isExamUnlocked sBase 7 1 0 = true := by decide
example : isJoined sBase 7 1 = true := by decide

/-! ## Claim C9: the testcase runner's contract -/

/-- C9: `runTestcases` returns exactly one outcome per input testcase, at
the same index (hence in the same order), and is a total function (never
throws).  An outcome's `passed` is exact trimmed string equality of actual
and expected output; when the execution client's call throws, the outcome
records `passed = false`, `actualOutput = ''`, `error` = the failure
reason and `executionTime = 0`, while every other index — including later
ones — is still produced from its own testcase. -/
theorem c9_runTestcases_contract (exec : ExecClient) (code language : String)
    (testcases : List RunTC) (timeLimit : Nat) (memoryLimit : String) :
    (runTestcases exec code language testcases timeLimit memoryLimit).length = testcases.length
    ∧ ∀ i : Nat,
        (runTestcases exec code language testcases timeLimit memoryLimit)[i]? =
          (testcases[i]?).map (fun testcase =>
            match exec code language testcase.input timeLimit with
            | .ok result =>
                { testcaseId := testcase.id
                  passed := jsTrim result.output == jsTrim testcase.expectedOutput
                  input := testcase.input
                  expectedOutput := testcase.expectedOutput
                  actualOutput := result.output
                  error := result.error
                  executionTime := result.executionTime }
            | .error msg =>
                { testcaseId := testcase.id
                  passed := false
                  input := testcase.input
                  expectedOutput := testcase.expectedOutput
                  actualOutput := ""
                  error := some msg
                  executionTime := 0 }) := by
  refine ⟨List.length_map _ _, fun i => ?_⟩
  simp only [runTestcases, List.getElem?_map]

/-! ## Claim C5: the memory limit is ignored -/

/-- C5 (amended): the memory limit accepted by `runTestcases` is ignored —
the outcomes and the trace of execution-client calls are independent of
it, and no call (hence no sandbox request, whose field set is fixed by
`ExecRequest`) carries it. -/
theorem c5_memory_limit_ignored (exec : ExecClient) (code language : String)
    (testcases : List RunTC) (timeLimit : Nat) (memoryLimit other : String) :
    runTestcases exec code language testcases timeLimit memoryLimit
      = runTestcases exec code language testcases timeLimit other
    ∧ runTestcasesCalls code language testcases timeLimit memoryLimit
      = runTestcasesCalls code language testcases timeLimit other := ⟨rfl, rfl⟩

/-- A copy of the base state whose question has `memoryLimit = 512`. -/
def sMem512 : DataState :=
  { sBase with questions := [{ q40 with memoryLimit := some 512 }] }

/-- C5 (counterexample): two states differing only in the question's
memory limit lead to identical execution-call traces, identical sandbox
request payloads, and identical run and submit responses — the memory
budget is not conveyed to the sandbox and cannot influence execution. -/
theorem c5_counterexample :
    sBase ≠ sMem512
    ∧ (submitRoute execOK sBase 7 0 40 "Python" "x").execCalls
        = (submitRoute execOK sMem512 7 0 40 "Python" "x").execCalls
    ∧ ((submitRoute execOK sBase 7 0 40 "Python" "x").execCalls).map
        (fun c => executeRequest pyRuntimes c.code c.language c.input c.timeLimit)
      = ((submitRoute execOK sMem512 7 0 40 "Python" "x").execCalls).map
        (fun c => executeRequest pyRuntimes c.code c.language c.input c.timeLimit)
    ∧ (submitRoute execOK sBase 7 0 40 "Python" "x").response
        = (submitRoute execOK sMem512 7 0 40 "Python" "x").response
    ∧ runRoute execOK sBase 7 0 40 "Python" "x" none none
        = runRoute execOK sMem512 7 0 40 "Python" "x" none none := by
  refine ⟨by decide, by decide, by rfl, by rfl, by decide⟩

/-! ## Claim C2: deadlines sent to the sandbox -/

/-- A question with no time limit. -/
def qNoLimit : Question := { q40 with id := 41, timeLimit := none }

/-- C2 (divergence witness): with `timeLimit = 2` seconds, the run and
submit paths hand `2 * 1000` to `executeCode`, which multiplies by 1000
again, so the sandbox receives `run_timeout = 2000000` ms instead of the
2000 ms the claim states; with no time limit the run path yields
5000000 ms instead of 5000 ms.  Only the fixed `compile_timeout = 10000`
matches the claim. -/
theorem c2_deadline_double_conversion :
    q40.timeLimit = some 2
    ∧ ((executeRequest pyRuntimes "print(1)" "Python" "" (runPathTimeLimitArg q40)).toOption.map
        (fun r => r.run_timeout)) = some 2000000
    ∧ ((executeRequest pyRuntimes "print(1)" "Python" "" (submitPathTimeLimitArg q40)).toOption.map
        (fun r => r.run_timeout)) = some 2000000
    ∧ ((executeRequest pyRuntimes "print(1)" "Python" "" (runPathTimeLimitArg qNoLimit)).toOption.map
        (fun r => r.run_timeout)) = some 5000000
    ∧ ((executeRequest pyRuntimes "print(1)" "Python" "" (runPathTimeLimitArg q40)).toOption.map
        (fun r => r.compile_timeout)) = some 10000 := by
  refine ⟨rfl, by decide, by decide, by decide, by decide⟩

/-! ## Claim C6: custom-input short-circuit -/

/-- C6: on a run request with custom stdin, if the trimmed custom input
equals the trimmed input of a stored testcase (visible or hidden — the
first such in stored order), the single custom run is judged against that
testcase's `expectedOutput`, and any caller-supplied expected output is
ignored; when no testcase matches, the caller-supplied expected output
(or the empty string) is used instead. -/
theorem c6_custom_input_short_circuit :
    (∀ (exec : ExecClient) (s : DataState) (pid : Nat) (now : Int) (questionId : Nat)
        (language code ci : String) (ceo : Option String) (question : Question) (tc : Testcase),
      s.questions.find? (fun q => q.id == questionId) = some question →
      isExamUnlocked s pid question.examId now = true →
      isJoined s pid question.examId = true →
      question.testcases.find? (fun t => jsTrim t.input == jsTrim ci) = some tc →
      runRoute exec s pid now questionId language code (some ci) ceo
        = .results (runTestcases exec code language
            [{ id := TCId.custom, input := ci, expectedOutput := tc.expectedOutput }]
            (runPathTimeLimitArg question) (runPathMemoryArg question))
      ∧ runRoute exec s pid now questionId language code (some ci) ceo
        = runRoute exec s pid now questionId language code (some ci) none)
    ∧ (∀ (exec : ExecClient) (s : DataState) (pid : Nat) (now : Int) (questionId : Nat)
        (language code ci : String) (ceo : Option String) (question : Question),
      s.questions.find? (fun q => q.id == questionId) = some question →
      isExamUnlocked s pid question.examId now = true →
      isJoined s pid question.examId = true →
      question.testcases.find? (fun t => jsTrim t.input == jsTrim ci) = none →
      runRoute exec s pid now questionId language code (some ci) ceo
        = .results (runTestcases exec code language
            [{ id := TCId.custom, input := ci, expectedOutput := ceo.getD "" }]
            (runPathTimeLimitArg question) (runPathMemoryArg question))) := by
  constructor
  · intro exec s pid now questionId language code ci ceo question tc hfind hunlock hjoin hmatch
    constructor
    · simp only [runRoute, hfind, hunlock, hjoin, hmatch, Bool.not_true, Bool.false_eq_true,
        if_false]
    · simp only [runRoute, hfind, hunlock, hjoin, hmatch, Bool.not_true, Bool.false_eq_true,
        if_false]
  · intro exec s pid now questionId language code ci ceo question hfind hunlock hjoin hmatch
    cases ceo with
    | none =>
        simp only [runRoute, hfind, hunlock, hjoin, hmatch, Bool.not_true, Bool.false_eq_true,
          if_false, Option.getD]
    | some v =>
        simp only [runRoute, hfind, hunlock, hjoin, hmatch, Bool.not_true, Bool.false_eq_true,
          if_false, Option.getD]

/-- C6 (witness): on the base state, the custom input `" 5 "` trim-matches
the hidden testcase's input `"5"`, so the run is judged against the
hidden expected output `"25"` and the caller's fabricated `"999"` is
ignored; a non-matching custom input `"7"` falls back to the caller's
expected output. -/
theorem c6_witness :
    (runRoute execOK sBase 7 0 40 "Python" "c" (some " 5 ") (some "999")
      = .results (runTestcases execOK "c" "Python"
          [{ id := TCId.custom, input := " 5 ", expectedOutput := tcHid.expectedOutput }]
          (runPathTimeLimitArg q40) (runPathMemoryArg q40))
    ∧ runRoute execOK sBase 7 0 40 "Python" "c" (some " 5 ") (some "999")
      = runRoute execOK sBase 7 0 40 "Python" "c" (some " 5 ") none)
    ∧ runRoute execOK sBase 7 0 40 "Python" "c" (some "7") (some "999")
      = .results (runTestcases execOK "c" "Python"
          [{ id := TCId.custom, input := "7", expectedOutput := (some "999").getD "" }]
          (runPathTimeLimitArg q40) (runPathMemoryArg q40)) := by
  refine ⟨c6_custom_input_short_circuit.1 execOK sBase 7 0 40 "Python" "c" " 5 " (some "999")
      q40 tcHid (by rfl) (by decide) (by decide) (by decide),
    c6_custom_input_short_circuit.2 execOK sBase 7 0 40 "Python" "c" "7" (some "999")
      q40 (by rfl) (by decide) (by decide) (by decide)⟩

/-! ## Claim C7: submit is rejected before execution on locked or
not-joined levels -/

/-- C7: when the target question's level is locked for the participant,
or is not joined, the submit request answers 403 with the data state
unchanged (no Submission row created) and an empty execution-call trace
(no code executed), for every execution client — i.e. even for code that
would pass all testcases. -/
theorem c7_submit_gating (exec : ExecClient) (s : DataState) (pid : Nat) (now : Int)
    (questionId : Nat) (language code : String) (question : Question)
    (hfind : s.questions.find? (fun q => q.id == questionId) = some question)
    (hgate : isExamUnlocked s pid question.examId now = false
      ∨ isJoined s pid question.examId = false) :
    (submitRoute exec s pid now questionId language code).state = s
    ∧ (submitRoute exec s pid now questionId language code).execCalls = []
    ∧ ∃ msg, (submitRoute exec s pid now questionId language code).response
        = .error 403 msg := by
  rcases hgate with hu | hj
  · simp only [submitRoute, hfind, hu, Bool.not_false, if_true]
    exact ⟨trivial, trivial, ⟨"Level locked", rfl⟩⟩
  · cases hu : isExamUnlocked s pid question.examId now with
    | false =>
        simp only [submitRoute, hfind, hu, Bool.not_false, if_true]
        exact ⟨trivial, trivial, ⟨"Level locked", rfl⟩⟩
    | true =>
        simp only [submitRoute, hfind, hu, hj, Bool.not_true, Bool.not_false,
          Bool.false_eq_true, if_false, if_true]
        exact ⟨trivial, trivial, ⟨"Please enter the exam code to access this level.", rfl⟩⟩

/-- A question on the second exam. -/
def q50 : Question := { q40 with id := 50, examId := 2 }

/-- State where exam 2 is locked (exam 1 has a question without a
completed submission) but joined. -/
def sLocked : DataState :=
  { exams := [exam1, exam2], questions := [q40, q50], submissions := [],
    joined := [(7, 1), (7, 2)] }

/-- C7 (witness): on `sLocked`, submitting against question 50 of the
locked exam 2 leaves the state unchanged, performs no execution call and
answers 403. -/
theorem c7_witness :
    (submitRoute execOK sLocked 7 0 50 "Python" "x").state = sLocked
    ∧ (submitRoute execOK sLocked 7 0 50 "Python" "x").execCalls = []
    ∧ ∃ msg, (submitRoute execOK sLocked 7 0 50 "Python" "x").response = .error 403 msg :=
  c7_submit_gating execOK sLocked 7 0 50 "Python" "x" q50 (by rfl) (Or.inl (by decide))

/-! ## Claim C8: submit scoring and aggregation -/

/-- `runTestcases` yields one outcome per testcase. -/
theorem runTestcases_length (exec : ExecClient) (code language : String)
    (testcases : List RunTC) (timeLimit : Nat) (memoryLimit : String) :
    (runTestcases exec code language testcases timeLimit memoryLimit).length
      = testcases.length :=
  List.length_map _ _

/-- C8: a successful submit against a question with `n ≥ 1` testcases of
which `k` outcomes passed persists exactly one new submission, with
`score = (k / n) * maxMarks` exactly, `totalTests = n`,
`passedTests = k`, status COMPLETED, and `executionTime` the arithmetic
mean over all `n` outcomes' execution times, failed outcomes included. -/
theorem c8_submit_scoring (exec : ExecClient) (s : DataState) (pid : Nat) (now : Int)
    (questionId : Nat) (language code : String) (question : Question)
    (hfind : s.questions.find? (fun q => q.id == questionId) = some question)
    (hu : isExamUnlocked s pid question.examId now = true)
    (hj : isJoined s pid question.examId = true)
    (htc : question.testcases ≠ []) :
    (submitRoute exec s pid now questionId language code).state.submissions
      = s.submissions ++
        [{ participantId := pid
           questionId := questionId
           language := language
           code := code
           score :=
             (((runTestcases exec code language (question.testcases.map Testcase.toRunTC)
                 (submitPathTimeLimitArg question) (submitPathMemoryArg question)).filter
                   (fun r => r.passed)).length : Rat)
               / (question.testcases.length : Rat) * question.maxMarks
           totalTests := question.testcases.length
           passedTests :=
             ((runTestcases exec code language (question.testcases.map Testcase.toRunTC)
                 (submitPathTimeLimitArg question) (submitPathMemoryArg question)).filter
                   (fun r => r.passed)).length
           status := "COMPLETED"
           executionTime :=
             ((((runTestcases exec code language (question.testcases.map Testcase.toRunTC)
                 (submitPathTimeLimitArg question) (submitPathMemoryArg question)).map
                   (fun r => r.executionTime)).sum : Nat) : Rat)
               / (question.testcases.length : Rat)
           createdAt := now }] := by
  have hlen0 : question.testcases.length ≠ 0 := by
    intro h0
    exact htc (List.length_eq_zero.mp h0)
  have hlen : (question.testcases.length == 0) = false := by
    simpa using hlen0
  simp only [submitRoute, hfind, hu, hj, hlen, Bool.not_true, Bool.false_eq_true, if_false,
    runTestcases_length, List.length_map]

/-- C8 (witness): instantiation of the scoring theorem on the base state
and its two-testcase question. -/
theorem c8_witness :
    (submitRoute execOK sBase 7 0 40 "Python" "x").state.submissions
      = sBase.submissions ++
        [{ participantId := 7
           questionId := 40
           language := "Python"
           code := "x"
           score :=
             (((runTestcases execOK "x" "Python" (q40.testcases.map Testcase.toRunTC)
                 (submitPathTimeLimitArg q40) (submitPathMemoryArg q40)).filter
                   (fun r => r.passed)).length : Rat)
               / (q40.testcases.length : Rat) * q40.maxMarks
           totalTests := q40.testcases.length
           passedTests :=
             ((runTestcases execOK "x" "Python" (q40.testcases.map Testcase.toRunTC)
                 (submitPathTimeLimitArg q40) (submitPathMemoryArg q40)).filter
                   (fun r => r.passed)).length
           status := "COMPLETED"
           executionTime :=
             ((((runTestcases execOK "x" "Python" (q40.testcases.map Testcase.toRunTC)
                 (submitPathTimeLimitArg q40) (submitPathMemoryArg q40)).map
                   (fun r => r.executionTime)).sum : Nat) : Rat)
               / (q40.testcases.length : Rat)
           createdAt := 0 }] :=
  c8_submit_scoring execOK sBase 7 0 40 "Python" "x" q40 (by rfl) (by decide) (by decide)
    (by decide)

/-! ## Claim C1: hidden-testcase confidentiality -/

/-- `find?` commutes with mapping a function that preserves the predicate. -/
theorem find?_map_pres (f : α → α) (p : α → Bool) (hp : ∀ a, p (f a) = p a) :
    ∀ l : List α, (l.map f).find? p = (l.find? p).map f := by
  intro l
  induction l with
  | nil => rfl
  | cons a l ih =>
      cases h : p a with
      | true => simp [List.find?_cons, hp a, h]
      | false => simp [List.find?_cons, hp a, h, ih]

/-- `filter` commutes with mapping a function that preserves the predicate. -/
theorem filter_map_pres (f : α → α) (p : α → Bool) (hp : ∀ a, p (f a) = p a) :
    ∀ l : List α, (l.map f).filter p = (l.filter p).map f := by
  intro l
  induction l with
  | nil => rfl
  | cons a l ih =>
      cases h : p a with
      | true => simp [List.filter_cons, hp a, h, ih]
      | false => simp [List.filter_cons, hp a, h, ih]

/-- Filtering for visible testcases is idempotent. -/
theorem filter_visible_idem (l : List Testcase) :
    (l.filter (fun tc => tc.visibility == Visibility.VISIBLE)).filter
        (fun tc => tc.visibility == Visibility.VISIBLE)
      = l.filter (fun tc => tc.visibility == Visibility.VISIBLE) := by
  induction l with
  | nil => rfl
  | cons a l ih =>
      cases h : (a.visibility == Visibility.VISIBLE) with
      | true => simp [List.filter_cons, h, ih]
      | false => simp [List.filter_cons, h, ih]

/-- Stripping hidden testcases acts questionwise on an exam's questions. -/
theorem questionsOf_strip (s : DataState) (examId : Nat) :
    questionsOf (stripHidden s) examId = (questionsOf s examId).map stripHiddenQ :=
  filter_map_pres stripHiddenQ (fun q => q.examId == examId) (fun _ => rfl) s.questions

/-- Whether a previous exam blocks unlocking ignores hidden testcases. -/
theorem blocksUnlock_strip (s : DataState) (pid : Nat) (now : Int) (prev : Exam) :
    blocksUnlock (stripHidden s) pid now prev = blocksUnlock s pid now prev := by
  simp only [blocksUnlock, questionsOf_strip, List.map_map, List.length_map]
  rfl

/-- The unlock gate ignores hidden testcases. -/
theorem isExamUnlocked_strip (s : DataState) (pid examId : Nat) (now : Int) :
    isExamUnlocked (stripHidden s) pid examId now = isExamUnlocked s pid examId now := by
  have hb : blocksUnlock (stripHidden s) pid now = blocksUnlock s pid now :=
    funext fun prev => blocksUnlock_strip s pid now prev
  have he : (stripHidden s).exams = s.exams := rfl
  simp only [isExamUnlocked, hb, he]

/-- The question listing's per-question view ignores hidden testcases. -/
theorem toQuestionView_strip (s : DataState) (pid : Nat) (q : Question) :
    toQuestionView (stripHidden s) pid (stripHiddenQ q) = toQuestionView s pid q := by
  simp only [toQuestionView, stripHiddenQ, filter_visible_idem]
  rfl

/-- `GET /questions` is computed from the hidden-stripped state: its
response never depends on (hence never contains) hidden testcase content. -/
theorem questionsRoute_stripHidden (hash : String → String) (s : DataState)
    (pid examId : Nat) (now : Int) :
    questionsRoute hash s pid examId now = questionsRoute hash (stripHidden s) pid examId now := by
  have h3 : (questionsOf (stripHidden s) examId).map (toQuestionView (stripHidden s) pid)
      = (questionsOf s examId).map (toQuestionView s pid) := by
    rw [questionsOf_strip, List.map_map]
    exact List.map_congr_left fun q _ => toQuestionView_strip s pid q
  have hij : isJoined (stripHidden s) pid examId = isJoined s pid examId := rfl
  simp only [questionsRoute, isExamUnlocked_strip, hij, h3]

/-- `POST /run` without custom input is computed from the hidden-stripped
state. -/
theorem runRoute_default_stripHidden (exec : ExecClient) (s : DataState) (pid : Nat)
    (now : Int) (questionId : Nat) (language code : String) :
    runRoute exec s pid now questionId language code none none
      = runRoute exec (stripHidden s) pid now questionId language code none none := by
  have hf : (stripHidden s).questions.find? (fun q => q.id == questionId)
      = (s.questions.find? (fun q => q.id == questionId)).map stripHiddenQ :=
    find?_map_pres stripHiddenQ (fun q => q.id == questionId) (fun _ => rfl) s.questions
  simp only [runRoute, hf]
  cases hq : s.questions.find? (fun q => q.id == questionId) with
  | none => rfl
  | some q =>
      simp only [Option.map]
      have hu : isExamUnlocked (stripHidden s) pid (stripHiddenQ q).examId now
          = isExamUnlocked s pid q.examId now := isExamUnlocked_strip s pid q.examId now
      have hv : (stripHiddenQ q).testcases.filter (fun tc => tc.visibility == Visibility.VISIBLE)
          = q.testcases.filter (fun tc => tc.visibility == Visibility.VISIBLE) :=
        filter_visible_idem q.testcases
      simp only [hu, hv]
      rfl

/-- Submit responses detail only VISIBLE testcases. -/
theorem submit_results_visible_only (exec : ExecClient) (s : DataState) (pid : Nat)
    (now : Int) (questionId : Nat) (language code : String) (question : Question)
    (r : Outcome)
    (hfind : s.questions.find? (fun q => q.id == questionId) = some question)
    (hr : r ∈ submitTestcaseResults (submitRoute exec s pid now questionId language code)) :
    ∃ tc ∈ question.testcases, tc.id = r.testcaseId ∧ tc.visibility = Visibility.VISIBLE := by
  cases hu : isExamUnlocked s pid question.examId now with
  | false =>
      simp only [submitTestcaseResults, submitRoute, hfind, hu, Bool.not_false, if_true] at hr
      exact absurd hr (List.not_mem_nil r)
  | true =>
      cases hj : isJoined s pid question.examId with
      | false =>
          simp only [submitTestcaseResults, submitRoute, hfind, hu, hj, Bool.not_true,
            Bool.not_false, Bool.false_eq_true, if_false, if_true] at hr
          exact absurd hr (List.not_mem_nil r)
      | true =>
          cases hl : (question.testcases.length == 0) with
          | true =>
              simp only [submitTestcaseResults, submitRoute, hfind, hu, hj, hl, Bool.not_true,
                Bool.false_eq_true, if_false, if_true] at hr
              exact absurd hr (List.not_mem_nil r)
          | false =>
              simp only [submitTestcaseResults, submitRoute, hfind, hu, hj, hl, Bool.not_true,
                Bool.false_eq_true, if_false] at hr
              have hmem := List.mem_filter.mp hr
              have hvis := hmem.2
              unfold submitVisibleFilter at hvis
              cases htc : question.testcases.find? (fun t => t.id == r.testcaseId) with
              | none => simp [htc] at hvis
              | some tc =>
                  simp only [htc] at hvis
                  refine ⟨tc, List.mem_of_find?_eq_some htc, ?_, eq_of_beq hvis⟩
                  have hpa := List.find?_some htc
                  simpa using hpa

/-- C1 (amended): hidden testcase content is confined except on the
custom-input run path.  (1) The question listing is computed from the
hidden-stripped state, so no hidden input or expectedOutput can appear in
it; (2) so is a run without custom input; (3) the per-testcase details a
submit response returns belong exclusively to VISIBLE testcases (the
aggregate score fields are the only hidden-dependent data there).  The
exception — a custom-input run echoing a hidden expectedOutput — is
exhibited by the counterexample. -/
theorem c1_hidden_confidentiality :
    (∀ (hash : String → String) (s : DataState) (pid examId : Nat) (now : Int),
      questionsRoute hash s pid examId now
        = questionsRoute hash (stripHidden s) pid examId now)
    ∧ (∀ (exec : ExecClient) (s : DataState) (pid : Nat) (now : Int) (questionId : Nat)
        (language code : String),
      runRoute exec s pid now questionId language code none none
        = runRoute exec (stripHidden s) pid now questionId language code none none)
    ∧ (∀ (exec : ExecClient) (s : DataState) (pid : Nat) (now : Int) (questionId : Nat)
        (language code : String) (question : Question) (r : Outcome),
      s.questions.find? (fun q => q.id == questionId) = some question →
      r ∈ submitTestcaseResults (submitRoute exec s pid now questionId language code) →
      ∃ tc ∈ question.testcases, tc.id = r.testcaseId ∧ tc.visibility = Visibility.VISIBLE) :=
  ⟨questionsRoute_stripHidden,
   runRoute_default_stripHidden,
   fun exec s pid now questionId language code question r hfind hr =>
     submit_results_visible_only exec s pid now questionId language code question r hfind hr⟩

/-- A state agreeing with `sBase` except for the hidden testcase's
expected output. -/
def sHidB : DataState :=
  { sBase with questions := [{ q40 with testcases := [tcVis, { tcHid with expectedOutput := "26" }] }] }

/-- C1 (counterexample): `sBase` and `sHidB` have identical
participant-visible images (they differ only in a HIDDEN testcase's
expectedOutput), yet the run response for a custom input matching that
hidden testcase differs — and carries the hidden expectedOutput itself —
refuting both readings of the claim for the run operation. -/
theorem c1_counterexample :
    tcHid.visibility = Visibility.HIDDEN
    ∧ stripHidden sBase = stripHidden sHidB
    ∧ runRoute execOK sBase 7 0 40 "Python" "c" (some "5") none
        ≠ runRoute execOK sHidB 7 0 40 "Python" "c" (some "5") none
    ∧ runRoute execOK sBase 7 0 40 "Python" "c" (some "5") none
        = .results [{ testcaseId := TCId.custom, passed := true, input := "5",
                      expectedOutput := "25", actualOutput := "25", error := none,
                      executionTime := 3 }] := by
  refine ⟨rfl, by decide, by decide, by decide⟩

/-- The identity as a stand-in digest oracle for the witness. -/
def hashId : String → String := fun s => s

/-- The visible testcase's outcome in a submit of `"x"` against `q40`. -/
def rVis : Outcome :=
  { testcaseId := .db 1, passed := false, input := "1 2", expectedOutput := "3",
    actualOutput := "25", error := none, executionTime := 3 }

/-- C1 (witness): the three conjuncts instantiated on the base state. -/
theorem c1_witness :
    questionsRoute hashId sBase 7 1 0 = questionsRoute hashId (stripHidden sBase) 7 1 0
    ∧ runRoute execOK sBase 7 0 40 "Python" "x" none none
        = runRoute execOK (stripHidden sBase) 7 0 40 "Python" "x" none none
    ∧ ∃ tc ∈ q40.testcases, tc.id = rVis.testcaseId ∧ tc.visibility = Visibility.VISIBLE :=
  ⟨c1_hidden_confidentiality.1 hashId sBase 7 1 0,
   c1_hidden_confidentiality.2.1 execOK sBase 7 0 40 "Python" "x",
   c1_hidden_confidentiality.2.2 execOK sBase 7 0 40 "Python" "x" q40 rVis (by rfl) (by decide)⟩

/-! ## Progression-machine characterizations -/

/-- The `unlocked` flag at index `i` of the listing loop: the entry
condition (previous exam's step, if any) and `stepOK` of every exam
before index `i`. -/
theorem examStatusLoop_unlocked_get (s : DataState) (pid : Nat) (now : Int) :
    ∀ (exs : List Exam) (prevOpt : Option Exam) (b : Bool) (i : Nat) (e : Exam),
      exs[i]? = some e →
      ((examStatusLoop s pid now exs prevOpt b)[i]?).map (fun st => st.unlocked)
        = some ((match prevOpt with
                 | none => true
                 | some p => b && stepOK s pid now p)
                && (exs.take i).all (stepOK s pid now)) := by
  intro exs
  induction exs with
  | nil => intro prevOpt b i e h; simp at h
  | cons e0 rest ih =>
      intro prevOpt b i e h
      cases i with
      | zero => simp [examStatusLoop]
      | succ i =>
          have h' : rest[i]? = some e := by simpa using h
          simp only [examStatusLoop, List.getElem?_cons_succ, List.take_succ_cons,
            List.all_cons]
          rw [ih (some e0) (match prevOpt with
                            | none => true
                            | some p => b && stepOK s pid now p) i e h']
          cases prevOpt with
          | none => simp [Bool.and_assoc]
          | some p => simp [Bool.and_assoc]

/-- The `completed` flag at index `i` of the listing loop depends only on
the exam at index `i`. -/
theorem examStatusLoop_completed_get (s : DataState) (pid : Nat) (now : Int) :
    ∀ (exs : List Exam) (prevOpt : Option Exam) (b : Bool) (i : Nat),
      ((examStatusLoop s pid now exs prevOpt b)[i]?).map (fun st => st.completed)
        = (exs[i]?).map (fun e => currentCompleted s pid e) := by
  intro exs
  induction exs with
  | nil => intro prevOpt b i; rfl
  | cons e0 rest ih =>
      intro prevOpt b i
      cases i with
      | zero => simp [examStatusLoop]
      | succ i =>
          simp only [examStatusLoop, List.getElem?_cons_succ]
          exact ih _ _ i

/-- With pairwise distinct exam ids, `findIdx?` on an exam's id finds its
index. -/
theorem findIdx?_of_nodup_ids :
    ∀ (exs : List Exam), (exs.map (fun e => e.id)).Nodup →
      ∀ (i : Nat) (e : Exam), exs[i]? = some e →
        exs.findIdx? (fun x => x.id == e.id) = some i := by
  intro exs
  induction exs with
  | nil => intro _ i e h; simp at h
  | cons a rest ih =>
      intro hn i e h
      have hn' : (rest.map (fun e => e.id)).Nodup := (List.nodup_cons.mp hn).2
      have hna : a.id ∉ rest.map (fun e => e.id) := (List.nodup_cons.mp hn).1
      cases i with
      | zero =>
          have ha : a = e := by simpa using h
          subst ha
          simp [List.findIdx?_cons]
      | succ i =>
          have h' : rest[i]? = some e := by simpa using h
          have hmem : e ∈ rest := by
            have := List.getElem?_eq_some.mp h'
            obtain ⟨hlt, hget⟩ := this
            exact hget ▸ List.getElem_mem hlt
          have hne : (a.id == e.id) = false := by
            have : a.id ≠ e.id := by
              intro hcontra
              exact hna (hcontra ▸ List.mem_map_of_mem (fun e => e.id) hmem)
            simpa using this
          simp [List.findIdx?_cons, hne, ih hn' i e h']

/-- The unlock gate at the exam of index `i`: no earlier exam blocks
(index 0 trivially included). -/
theorem isExamUnlocked_char (s : DataState) (pid : Nat) (now : Int) (i : Nat) (e : Exam)
    (hn : (s.exams.map (fun x => x.id)).Nodup) (h : s.exams[i]? = some e) :
    isExamUnlocked s pid e.id now = !((s.exams.take i).any (blocksUnlock s pid now)) := by
  unfold isExamUnlocked
  rw [findIdx?_of_nodup_ids s.exams hn i e h]
  cases i with
  | zero => simp
  | succ i => simp

/-- On an exam with at least one question, the listing's step condition
is exactly the negation of the gate's blocking condition. -/
theorem stepOK_eq_not_blocksUnlock (s : DataState) (pid : Nat) (now : Int) (prev : Exam)
    (hq : (questionsOf s prev.id).length ≠ 0) :
    stepOK s pid now prev = !(blocksUnlock s pid now prev) := by
  have hpos : 0 < (questionsOf s prev.id).length := Nat.pos_of_ne_zero hq
  simp only [stepOK, blocksUnlock, hpos, if_true, decide_true_eq_true]
  cases hc : (prismaDistinctCompleted s pid ((questionsOf s prev.id).map (fun q => q.id))
      == (questionsOf s prev.id).length) with
  | true => cases ht : timedOut now prev <;> simp [hc, ht, hpos]
  | false => cases ht : timedOut now prev <;> simp [hc, ht, hpos]

/-- Over exams that all have questions, "all steps pass" equals "none
blocks". -/
theorem all_stepOK_eq_not_any_blocks (s : DataState) (pid : Nat) (now : Int) :
    ∀ (l : List Exam), (∀ e ∈ l, (questionsOf s e.id).length ≠ 0) →
      l.all (stepOK s pid now) = !(l.any (blocksUnlock s pid now)) := by
  intro l
  induction l with
  | nil => intro _; rfl
  | cons a rest ih =>
      intro h
      have ha := stepOK_eq_not_blocksUnlock s pid now a (h a (List.mem_cons_self a rest))
      have hr := ih (fun e he => h e (List.mem_cons_of_mem a he))
      simp [List.all_cons, List.any_cons, ha, hr, Bool.not_or]

/-! ## Claim C3: zero-question levels -/

/-- C3 (amended): (1) a level with zero questions never has its
`completed` flag set by the listing; (2) in the listing, a level whose
predecessor has zero questions is *never* unlocked, regardless of the
predecessor's unlock state or elapsed `endTime`; (3) in the
`isExamUnlocked` gate used by the questions/run/submit paths, a
zero-question level never blocks, so the successor unlocks even without
any time-window expiry. -/
theorem c3_zero_question_levels :
    (∀ (s : DataState) (pid : Nat) (now : Int) (i : Nat) (e : Exam),
      s.exams[i]? = some e → questionsOf s e.id = [] →
      ((examStatusList s pid now)[i]?).map (fun st => st.completed) = some false)
    ∧ (∀ (s : DataState) (pid : Nat) (now : Int) (i : Nat) (prev eNext : Exam),
      s.exams[i]? = some prev → s.exams[i + 1]? = some eNext →
      questionsOf s prev.id = [] →
      ((examStatusList s pid now)[i + 1]?).map (fun st => st.unlocked) = some false)
    ∧ (∀ (s : DataState) (pid : Nat) (now : Int) (prev : Exam),
      questionsOf s prev.id = [] → blocksUnlock s pid now prev = false) := by
  refine ⟨?_, ?_, ?_⟩
  · intro s pid now i e h hq
    rw [examStatusList, examStatusLoop_completed_get s pid now s.exams none true i, h]
    simp [currentCompleted, hq]
  · intro s pid now i prev eNext h hnext hq
    rw [examStatusList,
      examStatusLoop_unlocked_get s pid now s.exams none true (i + 1) eNext hnext]
    have hmem : prev ∈ s.exams.take (i + 1) := by
      have hti : (s.exams.take (i + 1))[i]? = some prev := by
        rw [List.getElem?_take, if_pos (Nat.lt_succ_self i)]
        exact h
      have := List.getElem?_eq_some.mp hti
      obtain ⟨hlt, hget⟩ := this
      exact hget ▸ List.getElem_mem hlt
    have hfalse : stepOK s pid now prev = false := by simp [stepOK, hq]
    have hall : (s.exams.take (i + 1)).all (stepOK s pid now) = false := by
      cases hallc : (s.exams.take (i + 1)).all (stepOK s pid now) with
      | false => rfl
      | true =>
          have := List.all_eq_true.mp hallc prev hmem
          rw [hfalse] at this
          exact absurd this (by simp)
    simp [hall]
  · intro s pid now prev hq
    simp [blocksUnlock, hq]

/-- The first exam with an already-elapsed end time. -/
def exam1T : Exam := { id := 1, startTime := none, endTime := some 0 }

/-- Two exams where the first has zero questions and an elapsed end time. -/
def sZeroT : DataState :=
  { exams := [exam1T, exam2], questions := [q50], submissions := [], joined := [(7, 1), (7, 2)] }

/-- Two exams where the first has zero questions and no end time. -/
def sZero : DataState :=
  { exams := [exam1, exam2], questions := [q50], submissions := [], joined := [(7, 1), (7, 2)] }

/-- C3 (counterexample): with a zero-question first level whose endTime
has passed, the listing still reports the second level locked (refuting
the claim's "if" direction); with a zero-question first level whose
endTime has *not* passed (none), the gate reports the second level
unlocked (refuting "only via time-window expiry"). -/
theorem c3_counterexample :
    timedOut 100 exam1T = true
    ∧ (examStatusList sZeroT 7 100).map (fun st => st.unlocked) = [true, false]
    ∧ exam1.endTime = none
    ∧ isExamUnlocked sZero 7 2 0 = true := by
  refine ⟨by decide, by decide, rfl, by decide⟩

/-- C3 (witness): the three amended statements instantiated on the
two-exam states with a zero-question first level. -/
theorem c3_witness :
    ((examStatusList sZero 7 0)[0]?).map (fun st => st.completed) = some false
    ∧ ((examStatusList sZero 7 0)[0 + 1]?).map (fun st => st.unlocked) = some false
    ∧ blocksUnlock sZero 7 0 exam1 = false :=
  ⟨c3_zero_question_levels.1 sZero 7 0 0 exam1 (by rfl) (by decide),
   c3_zero_question_levels.2.1 sZero 7 0 0 exam1 exam2 (by rfl) (by rfl) (by decide),
   c3_zero_question_levels.2.2 sZero 7 0 exam1 (by decide)⟩

/-! ## Claim C10: listing unlock vs gate unlock -/

/-- C10 (amended): when every exam level has at least one question (and
exam ids are distinct), the `unlocked` flag reported by the levels
listing coincides with the `isExamUnlocked` gate for every level; the
counterexample shows they diverge on zero-question levels. -/
theorem c10_unlock_agreement (s : DataState) (pid : Nat) (now : Int)
    (hn : (s.exams.map (fun e => e.id)).Nodup)
    (hq : ∀ e ∈ s.exams, (questionsOf s e.id).length ≠ 0)
    (i : Nat) (e : Exam) (h : s.exams[i]? = some e) :
    ((examStatusList s pid now)[i]?).map (fun st => st.unlocked)
      = some (isExamUnlocked s pid e.id now) := by
  rw [examStatusList, examStatusLoop_unlocked_get s pid now s.exams none true i e h]
  rw [isExamUnlocked_char s pid now i e hn h]
  have := all_stepOK_eq_not_any_blocks s pid now (s.exams.take i)
    (fun x hx => hq x (List.take_subset i s.exams hx))
  simp [this]

/-- C10 (counterexample): on a state whose first exam has zero questions,
the listing reports the second level locked while the gate reports it
unlocked — the two unlock computations are not equivalent. -/
theorem c10_counterexample :
    (examStatusList sZero 7 0).map (fun st => st.unlocked) = [true, false]
    ∧ isExamUnlocked sZero 7 2 0 = true := by
  refine ⟨by decide, by decide⟩

/-- C10 (witness): agreement instantiated on the two-exam state where
both exams have questions. -/
theorem c10_witness :
    ((examStatusList sLocked 7 0)[1]?).map (fun st => st.unlocked)
      = some (isExamUnlocked sLocked 7 exam2.id 0) :=
  c10_unlock_agreement sLocked 7 0 (by decide) (by decide) 1 exam2 (by rfl)

/-! ## Claim C4: what counts as completion -/

/-- Core counting fact: a list `L` of values drawn from a duplicate-free
list `qids` has `L.dedup.length = qids.length` exactly when `L` covers
all of `qids`. -/
theorem dedup_length_eq_iff_covers (L qids : List Nat)
    (hsub : ∀ x ∈ L, x ∈ qids) (hn : qids.Nodup) :
    L.dedup.length = qids.length ↔ ∀ q ∈ qids, q ∈ L := by
  have h1 : L.dedup.toFinset = L.toFinset :=
    List.toFinset.ext_iff.mpr (fun x => List.mem_dedup)
  have hd : L.dedup.length = L.toFinset.card := by
    rw [← h1]
    exact (List.toFinset_card_of_nodup (List.nodup_dedup L)).symm
  have hq : qids.length = qids.toFinset.card :=
    (List.toFinset_card_of_nodup hn).symm
  have hsubf : L.toFinset ⊆ qids.toFinset := by
    intro x hx
    exact List.mem_toFinset.mpr (hsub x (List.mem_toFinset.mp hx))
  constructor
  · intro hlen q hqm
    have hcard : qids.toFinset.card ≤ L.toFinset.card :=
      le_of_eq (by rw [← hq, ← hlen, hd])
    have heq := Finset.eq_of_subset_of_card_le hsubf hcard
    have : q ∈ L.toFinset := by rw [heq]; exact List.mem_toFinset.mpr hqm
    exact List.mem_toFinset.mp this
  · intro hcov
    have heq : L.toFinset = qids.toFinset := by
      apply Finset.Subset.antisymm hsubf
      intro q hq'
      exact List.mem_toFinset.mpr (hcov q (List.mem_toFinset.mp hq'))
    rw [hd, hq, heq]

/-- C4 (amended): for the levels listing and the `isExamUnlocked` gate, a
level counts as completed exactly when *every* question of it has at
least one submission with status COMPLETED — no score condition; the
login route's level-advance computation instead demands a submission with
`score > 0` per question.  (The `Nodup` hypothesis reflects that question
ids are a primary key.) -/
theorem c4_completion_definitions :
    (∀ (s : DataState) (pid : Nat) (qids : List Nat), qids.Nodup →
      (prismaDistinctCompleted s pid qids = qids.length ↔
        ∀ q ∈ qids, ∃ sub ∈ s.submissions,
          sub.participantId = pid ∧ sub.questionId = q ∧ sub.status = "COMPLETED"))
    ∧ (∀ (s : DataState) (pid : Nat) (qids : List Nat), qids.Nodup →
      (loginDistinctPositive s pid qids = qids.length ↔
        ∀ q ∈ qids, ∃ sub ∈ s.submissions,
          sub.participantId = pid ∧ sub.questionId = q ∧ sub.score > 0)) := by
  constructor
  · intro s pid qids hn
    rw [prismaDistinctCompleted]
    rw [dedup_length_eq_iff_covers _ qids ?side hn]
    case side =>
      intro x hx
      obtain ⟨sub, hsubm, rfl⟩ := List.mem_map.mp hx
      have hpred := (List.mem_filter.mp hsubm).2
      rw [Bool.and_eq_true, Bool.and_eq_true] at hpred
      exact List.mem_of_elem_eq_true hpred.1.2
    refine forall_congr' fun q => imp_congr_right fun hqm => ?_
    simp only [List.mem_map, List.mem_filter]
    constructor
    · rintro ⟨sub, ⟨hsubm, hpred⟩, rfl⟩
      rw [Bool.and_eq_true, Bool.and_eq_true] at hpred
      exact ⟨sub, hsubm, by simpa using hpred.1.1, rfl, by simpa using hpred.2⟩
    · rintro ⟨sub, hsubm, hpid, rfl, hstat⟩
      refine ⟨sub, ⟨hsubm, ?_⟩, rfl⟩
      simp [hpid, hstat, hqm]
  · intro s pid qids hn
    rw [loginDistinctPositive]
    rw [dedup_length_eq_iff_covers _ qids ?side hn]
    case side =>
      intro x hx
      obtain ⟨sub, hsubm, rfl⟩ := List.mem_map.mp hx
      have hpred := (List.mem_filter.mp hsubm).2
      rw [Bool.and_eq_true, Bool.and_eq_true] at hpred
      exact List.mem_of_elem_eq_true hpred.1.2
    refine forall_congr' fun q => imp_congr_right fun hqm => ?_
    simp only [List.mem_map, List.mem_filter]
    constructor
    · rintro ⟨sub, ⟨hsubm, hpred⟩, rfl⟩
      rw [Bool.and_eq_true, Bool.and_eq_true] at hpred
      exact ⟨sub, hsubm, by simpa using hpred.1.1, rfl, by simpa using hpred.2⟩
    · rintro ⟨sub, hsubm, hpid, rfl, hscore⟩
      refine ⟨sub, ⟨hsubm, ?_⟩, rfl⟩
      simp [hpid, hscore, hqm]

/-- A zero-score COMPLETED submission of participant 7 to question 40. -/
def subZero : Submission :=
  { participantId := 7, questionId := 40, language := "Python", code := "x", score := 0,
    totalTests := 2, passedTests := 0, status := "COMPLETED", executionTime := 0, createdAt := 0 }

/-- Two exams with one question each; participant 7 has a zero-score
COMPLETED submission for the first exam's question. -/
def sC4 : DataState :=
  { exams := [exam1, exam2], questions := [q40, q50], submissions := [subZero],
    joined := [(7, 1), (7, 2)] }

/-- C4 (counterexample): with only a zero-score COMPLETED submission for
level 1's question, the listing and the gate unlock level 2, but the
login route's highest-unlocked-exam computation stays at level 1 — login
does not use the status-COMPLETED existence definition. -/
theorem c4_counterexample :
    subZero.status = "COMPLETED"
    ∧ subZero.score = 0
    ∧ (examStatusList sC4 7 0).map (fun st => st.unlocked) = [true, true]
    ∧ isExamUnlocked sC4 7 2 0 = true
    ∧ loginActiveExam sC4 7 = some exam1 := by
  refine ⟨rfl, rfl, by decide, by decide, by decide⟩

/-- C4 (witness): both characterizations instantiated on `sC4` with the
question-id list `[40]`. -/
theorem c4_witness :
    (prismaDistinctCompleted sC4 7 [40] = [40].length ↔
      ∀ q ∈ [40], ∃ sub ∈ sC4.submissions,
        sub.participantId = 7 ∧ sub.questionId = q ∧ sub.status = "COMPLETED")
    ∧ (loginDistinctPositive sC4 7 [40] = [40].length ↔
      ∀ q ∈ [40], ∃ sub ∈ sC4.submissions,
        sub.participantId = 7 ∧ sub.questionId = q ∧ sub.score > 0) :=
  ⟨c4_completion_definitions.1 sC4 7 [40] (by decide),
   c4_completion_definitions.2 sC4 7 [40] (by decide)⟩
